import Mathlib

/-!
# Starmap — verification of the spec's claims against the source

Shallow embedding of the two source files of the repository
(`src/sync_stars.py`, `src/mcp_server.py`): the paginated ingestor and
record normalizer, the query engine (search / by-language / by-topic /
top-N / recent-N), the markdown renderer, the conditional GitHub commit
step, the Supermemory mirror loop, and the overall sync flow of `main`.

Python dicts of JSON data are modelled as association lists over a JSON
value type `JVal`; Python's `dict.get(k, d)` is `pyGet`.  Machine-level
concerns do not arise (Python integers are unbounded, modelled as `Nat`
where the source guarantees non-negativity).  Network calls are modelled
as explicit parameters carrying the remote side's responses.
-/

/-- A JSON value, the dynamic data the GitHub API returns.  A Python dict
is its field list (keys unique, insertion order kept). -/
inductive JVal where
  | null : JVal
  | bool (b : Bool) : JVal
  | num (n : Int) : JVal
  | str (s : String) : JVal
  | arr (xs : List JVal) : JVal
  | obj (fields : List (String × JVal)) : JVal

/-- Python `d.get(key, dflt)` on a dict: the stored value when the key is
present (whatever it is, `null` included), the default only when absent. -/
def pyGet (fields : List (String × JVal)) (key : String) (dflt : JVal) : JVal :=
  (fields.lookup key).getD dflt

/-- `sync_stars.py` line 46 / `mcp_server.py` line 139:
`repo = item if 'repo' not in item else item['repo']` for a dict `item`. -/
def repoPart (item : List (String × JVal)) : JVal :=
  match item.lookup "repo" with
  | none => JVal.obj item
  | some v => v

/-- The dict appended per raw entry (`sync_stars.py` lines 49–59): one
field per key of the literal, values exactly what `.get` produced.  The
MCP server's variant (`mcp_server.py` lines 142–150) is the restriction
to the first seven fields. -/
structure StarRecordJ where
  name : JVal
  description : JVal
  url : JVal
  language : JVal
  topics : JVal
  stars : JVal
  last_updated : JVal
  starred_at : JVal
  homepage : JVal

/-- Normalization of one raw entry (`sync_stars.py` lines 44–59).  `none`
models the loop body raising: `repo.get(...)` fails when the resolved
repo part is not a dict (e.g. a wrapper whose `repo` value is a number). -/
def normalizeEntry (item : List (String × JVal)) : Option StarRecordJ :=
  match repoPart item with
  | JVal.obj rf =>
      some
        { name := pyGet rf "full_name" (JVal.str "")
          description := pyGet rf "description" (JVal.str "")
          url := pyGet rf "html_url" (JVal.str "")
          language := pyGet rf "language" (JVal.str "Unknown")
          topics := pyGet rf "topics" (JVal.arr [])
          stars := pyGet rf "stargazers_count" (JVal.num 0)
          last_updated := pyGet rf "updated_at" (JVal.str "")
          starred_at := pyGet item "starred_at" (JVal.str "")
          homepage := pyGet rf "homepage" (JVal.str "") }
  | _ => none

/-- The `for item in repos` normalization loop over one page: all entries
normalize or the whole fetch raises (`none`). -/
def normalizeAll : List (List (String × JVal)) → Option (List StarRecordJ)
  | [] => some []
  | item :: rest =>
      match normalizeEntry item, normalizeAll rest with
      | some r, some rs => some (r :: rs)
      | _, _ => none

/-- The `while True` pagination loop of `fetch_starred_repos`
(`sync_stars.py` lines 33–66, identically `mcp_server.py` lines 129–154).
`src p` is the JSON array the source returns for page `p` (pages are
1-indexed).  The result is `some (records, requests)` when the loop
terminates within `fuel` iterations — one request per iteration — and the
fuel models only the unboundedness of `while True`, never an early stop:
the loop itself breaks exactly on an empty page or a short (< 100) page. -/
def fetchLoop (src : Nat → List (List (String × JVal))) :
    Nat → Nat → Option (List StarRecordJ × Nat)
  | 0, _ => none
  | fuel + 1, page =>
      let repos := src page
      if repos.length = 0 then some ([], 1)
      else
        match normalizeAll repos with
        | none => none
        | some recs =>
            if repos.length < 100 then some (recs, 1)
            else
              match fetchLoop src fuel (page + 1) with
              | none => none
              | some (rest, n) => some (recs ++ rest, n + 1)

/-- `fetch_starred_repos`: drive the pagination loop from page 1. -/
def fetch_starred_repos (src : Nat → List (List (String × JVal)))
    (fuel : Nat) : Option (List StarRecordJ × Nat) :=
  fetchLoop src fuel 1

/-- A concrete paginated source: one full page of 100 entries, then a
short page of 3, then nothing (each entry the empty dict, a bare
repository mapping with every field absent). -/
def srcW : Nat → List (List (String × JVal)) := fun p =>
  if p = 1 then List.replicate 100 []
  else if p = 2 then List.replicate 3 []
  else []

/-- The canonical Star Record (spec §3) as the query/render/mirror code
consumes it: a dict with these keys whose values have the shapes the
normalizer materializes (`stars` always an integer, `topics` always a
list, the rest strings). -/
structure StarRecord where
  name : String
  description : String
  url : String
  language : String
  topics : List String
  stars : Nat
  starred_at : String
  last_updated : String
  homepage : String
  deriving DecidableEq

/-- One step of a stable descending insertion by `key`: `x` goes before
the first element whose key is `≤ key x`, so among equal keys the earlier
element stays earlier. -/
def insertDesc {α β : Type} [LinearOrder β] (key : α → β) (x : α) :
    List α → List α
  | [] => [x]
  | y :: l => if key y ≤ key x then x :: y :: l else y :: insertDesc key x l

/-- Python's `sorted(xs, key=key, reverse=True)` (and `xs.sort(...)`):
a stable descending sort.  A stable sort over a total key order is unique
as a function of its input, so this insertion sort is extensionally the
same function as CPython's Timsort with `reverse=True`. -/
def sortDesc {α β : Type} [LinearOrder β] (key : α → β) : List α → List α
  | [] => []
  | x :: l => insertDesc key x (sortDesc key l)

/-- Python's substring test `needle in hay` on lists of characters. -/
def containsSub (needle : List Char) : List Char → Bool
  | [] => needle.isEmpty
  | c :: rest => needle.isPrefixOf (c :: rest) || containsSub needle rest

/-- Python's `needle in hay` for strings. -/
def pyInStr (needle hay : String) : Bool :=
  containsSub needle.toList hay.toList

/-- `search_stars` (`mcp_server.py` lines 165–178): substring match of the
lowercased query against name, description, language or any topic;
ingestion order kept; truncated to the limit. -/
def searchStars (repos : List StarRecord) (query : String) (lim : Nat) :
    List StarRecord :=
  let q := query.toLower
  (repos.filter fun r =>
    pyInStr q r.name.toLower || pyInStr q r.description.toLower ||
      pyInStr q r.language.toLower ||
      r.topics.any fun t => pyInStr q t.toLower).take lim

/-- `get_stars_by_language` (`mcp_server.py` lines 180–190). -/
def byLanguage (repos : List StarRecord) (language : String) (lim : Nat) :
    List StarRecord :=
  (repos.filter fun r => r.language.toLower == language.toLower).take lim

/-- `get_stars_by_topic` (`mcp_server.py` lines 192–202): lowercased topic
as a substring of any topic tag. -/
def byTopic (repos : List StarRecord) (topic : String) (lim : Nat) :
    List StarRecord :=
  let t := topic.toLower
  (repos.filter fun r => r.topics.any fun tag => pyInStr t tag.toLower).take lim

/-- `get_top_stars` (`mcp_server.py` lines 204–209):
`sorted(repos, key=lambda x: x["stars"], reverse=True)[:limit]`. -/
def topStars (repos : List StarRecord) (lim : Nat) : List StarRecord :=
  (sortDesc (fun r => r.stars) repos).take lim

/-- `get_recent_stars` (`mcp_server.py` lines 211–216):
`sorted(repos, key=lambda x: x.get("starred_at", ""), reverse=True)[:limit]`. -/
def recentStars (repos : List StarRecord) (lim : Nat) : List StarRecord :=
  (sortDesc (fun r => r.starred_at) repos).take lim

/-- One repository section of the markdown document
(`sync_stars.py` lines 145–165). -/
def repoSection (r : StarRecord) : String :=
  let topicsStr :=
    if r.topics.isEmpty then ""
    else String.intercalate " · " ((r.topics.take 5).map fun t => "`" ++ t ++ "`")
  let langBadge :=
    if r.language == "Unknown" then ""
    else "![" ++ r.language ++ "](https://img.shields.io/badge/-" ++
      (r.language.replace " " "%20") ++ "-grey)"
  "## [" ++ r.name ++ "](" ++ r.url ++ ")\n\n" ++
    (if r.description == "" then "_No description provided_" else r.description) ++
    "\n\n" ++ langBadge ++ " ⭐ " ++ toString r.stars ++ " stars\n\n" ++
    topicsStr ++ "\n\n---\n\n"

/-- The document header (`sync_stars.py` lines 136–143); `ts` is the
wall-clock timestamp string, an explicit parameter here. -/
def mdHeader (ts : String) (n : Nat) : String :=
  "# 🗺️ My GitHub Stars\n\n> Last updated: " ++ ts ++
    "\n> Total repositories: " ++ toString n ++ "\n\n---\n\n"

/-- `generate_markdown` (`sync_stars.py` lines 131–167).  The source
sorts the caller's list in place (`repos.sort(key=..., reverse=True)`)
before rendering; the pair returns that mutated ordering alongside the
rendered text. -/
def generate_markdown (ts : String) (repos : List StarRecord) :
    List StarRecord × String :=
  let sorted := sortDesc (fun r => r.starred_at) repos
  (sorted, mdHeader ts repos.length ++ String.join (sorted.map repoSection))

/-- Concrete records distinguished by name and star count, all other
fields defaulted. -/
def exR (nm : String) (st : Nat) : StarRecord :=
  { name := nm, description := "", url := "", language := "Unknown"
    topics := [], stars := st, starred_at := "", last_updated := ""
    homepage := "" }

/-- Python dict assignment `d[k] = v`: replace in place when the key is
present (insertion order kept), append otherwise. -/
def dictSet : List (String × String) → String → String → List (String × String)
  | [], k, v => [(k, v)]
  | (k', v') :: rest, k, v =>
      if k' = k then (k, v) :: rest else (k', v') :: dictSet rest k v

/-- UTF-8 encoding of one Unicode code point (`str.encode('utf-8')`,
bytes as `Nat < 256`). -/
def utf8Char (c : Nat) : List Nat :=
  if c < 128 then [c]
  else if c < 2048 then [192 + c / 64, 128 + c % 64]
  else if c < 65536 then [224 + c / 4096, 128 + c / 64 % 64, 128 + c % 64]
  else [240 + c / 262144, 128 + c / 4096 % 64, 128 + c / 64 % 64, 128 + c % 64]

/-- `s.encode('utf-8')` as a byte list. -/
def utf8Bytes (s : String) : List Nat :=
  (s.toList.map fun ch => utf8Char ch.toNat).flatten

def b64Alphabet : List Char :=
  "ABCDEFGHIJKLMNOPQRSTUVWXYZabcdefghijklmnopqrstuvwxyz0123456789+/".toList

def b64Char (n : Nat) : Char := b64Alphabet.getD n 'A'

/-- Standard base64 of a byte list (`base64.b64encode`), three bytes to
four alphabet characters, `=`-padded. -/
def base64Chars : List Nat → List Char
  | [] => []
  | [a] => [b64Char (a / 4), b64Char (a % 4 * 16), '=', '=']
  | [a, b] =>
      [b64Char (a / 4), b64Char (a % 4 * 16 + b / 16), b64Char (b % 16 * 4), '=']
  | a :: b :: c :: rest =>
      b64Char (a / 4) :: b64Char (a % 4 * 16 + b / 16) ::
        b64Char (b % 16 * 4 + c / 64) :: b64Char (c % 64) :: base64Chars rest

def base64Encode (bytes : List Nat) : String := (base64Chars bytes).asString

/-- `sync_stars.py` lines 183–190: the GET of the current file and its
branch on `sha`.  The read's outcome is a parameter: `none` models an
exception during the request, `some (status, shaField)` a response with
that status whose JSON carries `shaField` under `"sha"` (`.get("sha")`
may itself be absent).  Only a 200 yields a sha; every other outcome
leaves `sha = None`. -/
def shaFromGet : Option (Nat × Option String) → Option String
  | none => none
  | some (st, s) => if st = 200 then s else none

/-- The PUT payload of `commit_to_github` (`sync_stars.py` lines 192–204)
built exactly in source order: the dict literal whose `content` is the
URL-quoted markdown with `%` stripped, then `payload["sha"] = sha` when
`sha` is truthy, then `payload["content"]` overwritten with the base64 of
the UTF-8 bytes.  `quote` stands for the library's `requests.utils.quote`,
left abstract because its value is discarded. -/
def commitPayload (quote : String → String) (message branch markdown : String)
    (sha : Option String) : List (String × String) :=
  let p0 := [("message", message),
             ("content", (quote markdown).replace "%" ""),
             ("branch", branch)]
  let p1 := match sha with
    | some s => if s = "" then p0 else dictSet p0 "sha" s
    | none => p0
  dictSet p1 "content" (base64Encode (utf8Bytes markdown))

/-- The normal form of the payload's trailing `sha` entry. -/
def shaEntry : Option String → List (String × String)
  | none => []
  | some s => if s = "" then [] else [("sha", s)]

inductive CommitResult where
  | ok : CommitResult
  | httpError (status : Nat) : CommitResult
  deriving DecidableEq

/-- The outcome `commit_to_github` raises on a version-token mismatch:
the `HTTPError` whose status is the store's conflict signal (409). -/
def PublishConflict : CommitResult := CommitResult.httpError 409

/-- The outcome raised for a write rejected with any status. -/
def UpstreamError (status : Nat) : CommitResult := CommitResult.httpError status

/-- Modelled from the spec: the remote document store's conditional-write
interface (spec §4.5, §6) — the store is an external collaborator, not
code of this repository.  State is `some (versionToken, content)` or
`none` (path absent).  A PUT carrying a token that matches the stored one
replaces the content (success), a mismatching token is rejected with the
conflict status 409 and changes nothing, a token-less PUT creates the
document when absent and is rejected otherwise. -/
def storePut (store : Option (String × String)) (token : Option String)
    (content newSha : String) : Option (String × String) × Nat :=
  match store, token with
  | some (sha, old), some t =>
      if t = sha then (some (newSha, content), 200) else (some (sha, old), 409)
  | some st, none => (some st, 422)
  | none, none => (some (newSha, content), 201)
  | none, some _ => (none, 422)

/-- `commit_to_github` (`sync_stars.py` lines 170–209): resolve the sha
from the read's outcome, build the payload, PUT it (the store reads the
token and content out of the payload), and `raise_for_status`: the result
is `ok` below 400 and the raised `httpError` otherwise.  Returns the
payload sent, the store's state after the PUT, and the outcome. -/
def commit_to_github (quote : String → String)
    (message branch markdown : String)
    (getResp : Option (Nat × Option String))
    (store : Option (String × String)) (newSha : String) :
    List (String × String) × Option (String × String) × CommitResult :=
  let payload := commitPayload quote message branch markdown (shaFromGet getResp)
  let put := storePut store (payload.lookup "sha")
    ((payload.lookup "content").getD "") newSha
  (payload, put.1, if put.2 ≥ 400 then CommitResult.httpError put.2 else CommitResult.ok)

inductive ToolResult where
  | text (s : String) : ToolResult
  deriving DecidableEq

/-- The `arguments` dict of a tool call: `args.get(key, default)` is
modelled by `Option.getD` on the matching field. -/
structure ToolArgs where
  query : Option String
  language : Option String
  topic : Option String
  limit : Option Nat

/-- `call_tool` (`mcp_server.py` lines 159–218): fetch, then dispatch on
the tool name; an unknown name yields the plain `"Unknown tool"` text.
`fetchResult` is the outcome of `fetch_starred_repos` inside the handler
(`Except.error` models its raising on an upstream failure, which the
handler does not catch and therefore re-raises); `dumps` stands for
`json.dumps(..., indent=2)`, left abstract. -/
def call_tool (dumps : List StarRecord → String)
    (fetchResult : Except String (List StarRecord))
    (name : String) (args : ToolArgs) : Except String (List ToolResult) :=
  match fetchResult with
  | Except.error e => Except.error e
  | Except.ok repos =>
      if name = "search_stars" then
        Except.ok [ToolResult.text
          (dumps (searchStars repos (args.query.getD "") (args.limit.getD 10)))]
      else if name = "get_stars_by_language" then
        Except.ok [ToolResult.text
          (dumps (byLanguage repos (args.language.getD "") (args.limit.getD 10)))]
      else if name = "get_stars_by_topic" then
        Except.ok [ToolResult.text
          (dumps (byTopic repos (args.topic.getD "") (args.limit.getD 10)))]
      else if name = "get_top_stars" then
        Except.ok [ToolResult.text (dumps (topStars repos (args.limit.getD 10)))]
      else if name = "get_recent_stars" then
        Except.ok [ToolResult.text (dumps (recentStars repos (args.limit.getD 10)))]
      else Except.ok [ToolResult.text "Unknown tool"]

/-- Modelled from the spec: the tool-protocol dispatch layer around the
handler (spec §1 places the stdio transport out of scope, §7 requires
that "all user-facing failures during a tool-call are caught and
re-surfaced as a textual error result rather than terminating the
protocol session").  This wrapper lives in the MCP SDK, not in the
repository's files: it catches whatever the handler raises and turns it
into a textual result. -/
def toolSession (dumps : List StarRecord → String)
    (fetchResult : Except String (List StarRecord))
    (name : String) (args : ToolArgs) : List ToolResult :=
  match call_tool dumps fetchResult name args with
  | Except.ok res => res
  | Except.error e => [ToolResult.text e]

/-- The `for repo in repos` loop of `SupermemoryClient.sync_repos`
(`sync_stars.py` lines 108–126), counting (successes, submissions).
`postOk i` is whether the `i`-th record's POST succeeds;
`add_memory` (lines 81–97) catches its own exceptions and returns a
bool, so one failure never aborts the remaining submissions. -/
def syncLoop (postOk : Nat → Bool) : Nat → List StarRecord → Nat × Nat
  | _, [] => (0, 0)
  | i, _ :: rest =>
      let p := syncLoop postOk (i + 1) rest
      ((if postOk i then 1 else 0) + p.1, p.2 + 1)

/-- `SupermemoryClient.sync_repos` (`sync_stars.py` lines 99–128):
returns `(success_count, submissions attempted)`; with a falsy API key it
returns 0 immediately, attempting nothing. -/
def sync_repos (apiKey : String) (postOk : Nat → Bool)
    (repos : List StarRecord) : Nat × Nat :=
  if apiKey = "" then (0, 0) else syncLoop postOk 0 repos

/-- The observable steps of one sync run, in program order. -/
inductive SyncEvent where
  | savedLocal (content : String) : SyncEvent
  | mirrored (successes : Nat) : SyncEvent
  | publishAttempt : SyncEvent
  | publishOk : SyncEvent
  | publishFailureReported : SyncEvent
  deriving DecidableEq

structure SyncRun where
  localFile : Option String
  events : List SyncEvent
  completed : Bool
  deriving DecidableEq

/-- `main` (`sync_stars.py` lines 239–265) from the point the fetched
records are in hand: empty fetch returns early; otherwise render, save
locally (unconditional), mirror when a Supermemory key is configured,
then attempt the GitHub commit inside `try/except` — a raise
(`publishRaises`) is caught and reported, and the run still completes.
`localFile` is the content written to `starred-repos.md`; note the
mirror receives the list `generate_markdown` sorted in place. -/
def mainSync (ts : String) (repos : List StarRecord) (smKey : String)
    (postOk : Nat → Bool) (publishRaises : Bool) : SyncRun :=
  if repos.isEmpty then { localFile := none, events := [], completed := true }
  else
    let rendered := generate_markdown ts repos
    let mirrorEvents :=
      if smKey = "" then []
      else [SyncEvent.mirrored (sync_repos smKey postOk rendered.1).1]
    let publishEvents :=
      if publishRaises then
        [SyncEvent.publishAttempt, SyncEvent.publishFailureReported]
      else [SyncEvent.publishAttempt, SyncEvent.publishOk]
    { localFile := some rendered.2
      events := SyncEvent.savedLocal rendered.2 :: mirrorEvents ++ publishEvents
      completed := true }

theorem normalizeAll_length :
    ∀ (l : List (List (String × JVal))) (rs : List StarRecordJ),
      normalizeAll l = some rs → rs.length = l.length := by
  intro l
  induction l with
  | nil => intro rs h; cases h; rfl
  | cons item rest ih =>
      intro rs h
      unfold normalizeAll at h
      cases he : normalizeEntry item with
      | none => rw [he] at h; cases h
      | some r =>
          cases hr : normalizeAll rest with
          | none => rw [he, hr] at h; cases h
          | some rs' =>
              rw [he, hr] at h
              cases h
              simp [ih rs' hr]

theorem fetchLoop_pages (src : Nat → List (List (String × JVal))) :
    ∀ (k page fuel m : Nat),
      m < 100 →
      (∀ i, i < k → (src (page + i)).length = 100) →
      (src (page + k)).length = m →
      (∀ i, i ≤ k → (normalizeAll (src (page + i))).isSome = true) →
      k + 1 ≤ fuel →
      ∃ recs, fetchLoop src fuel page = some (recs, k + 1) ∧
        recs.length = 100 * k + m := by
  intro k
  induction k with
  | zero =>
      intro page fuel m hm _ hlast hnorm hfuel
      obtain ⟨f, rfl⟩ : ∃ f, fuel = f + 1 := ⟨fuel - 1, by omega⟩
      rw [Nat.add_zero] at hlast
      by_cases hz : (src page).length = 0
      · have hm0 : m = 0 := by omega
        refine ⟨[], ?_, by simp [hm0]⟩
        unfold fetchLoop
        simp [hz]
      · have hs := hnorm 0 (Nat.le_refl 0)
        rw [Nat.add_zero] at hs
        obtain ⟨recs, hrecs⟩ := Option.isSome_iff_exists.mp hs
        refine ⟨recs, ?_, ?_⟩
        · unfold fetchLoop
          simp only [hz, if_false, hrecs]
          rw [hlast]
          simp [hm]
        · rw [normalizeAll_length _ _ hrecs, hlast]; omega
  | succ k ih =>
      intro page fuel m hm hfull hlast hnorm hfuel
      obtain ⟨f, rfl⟩ : ∃ f, fuel = f + 1 := ⟨fuel - 1, by omega⟩
      have h0 : (src page).length = 100 := by
        have := hfull 0 (Nat.succ_pos k)
        rwa [Nat.add_zero] at this
      have hs := hnorm 0 (Nat.zero_le _)
      rw [Nat.add_zero] at hs
      obtain ⟨recs0, hrecs0⟩ := Option.isSome_iff_exists.mp hs
      have hrest : ∃ recs, fetchLoop src f (page + 1) = some (recs, k + 1) ∧
          recs.length = 100 * k + m := by
        refine ih (page + 1) f m hm ?_ ?_ ?_ (by omega)
        · intro i hi
          have := hfull (i + 1) (by omega)
          rwa [show page + (i + 1) = page + 1 + i by omega] at this
        · rwa [show page + (k + 1) = page + 1 + k by omega] at hlast
        · intro i hi
          have := hnorm (i + 1) (by omega)
          rwa [show page + (i + 1) = page + 1 + i by omega] at this
      obtain ⟨recs, hloop, hlen⟩ := hrest
      refine ⟨recs0 ++ recs, ?_, ?_⟩
      · unfold fetchLoop
        simp only [h0, hrecs0, hloop]
        norm_num
      · rw [List.length_append, normalizeAll_length _ _ hrecs0, h0, hlen]
        ring

/-- **C1** — Pagination termination.  For a source that returns `k` full
pages of 100 entries (pages `1..k`) followed by a final page `k+1` of
`m < 100` entries — `m = 0` being the exact-multiple case, where the extra
`(k+1)`-th request returns an empty page — the ingestor terminates with
exactly `100*k + m` records and exactly `k+1` page requests.  The request
count is determined solely by where the source's short/empty page lies,
never by a fixed page-count guess. -/
theorem fetch_pagination (src : Nat → List (List (String × JVal)))
    (k m : Nat) (hm : m < 100)
    (hfull : ∀ i, i < k → (src (1 + i)).length = 100)
    (hlast : (src (1 + k)).length = m)
    (hnorm : ∀ i, i ≤ k → (normalizeAll (src (1 + i))).isSome = true) :
    ∃ recs, fetch_starred_repos src (k + 1) = some (recs, k + 1) ∧
      recs.length = 100 * k + m :=
  fetchLoop_pages src k 1 (k + 1) m hm hfull hlast hnorm (Nat.le_refl _)

theorem fetch_pagination_witness :
    ∃ recs, fetch_starred_repos srcW 2 = some (recs, 2) ∧
      recs.length = 100 * 1 + 3 :=
  fetch_pagination srcW 1 3 (by decide)
    (fun i hi => by
      have : i = 0 := by omega
      subst this
      decide)
    (by decide)
    (fun i hi => by
      match i, hi with
      | 0, _ => decide
      | 1, _ => decide)

/-- **C2 counterexample** — the claim says any *malformed* field degrades
to its default; the code only defaults *absent* keys.  A bare repository
mapping whose `description` is JSON `null` normalizes to a record whose
`description` is `null`, not the empty-string default; and a wrapper
mapping whose `repo` key holds a non-mapping raises
(`repo.get` on an `int`), contradicting "never raises". -/
theorem normalize_malformed_counterexample :
    (∃ r, normalizeEntry [("description", JVal.null)] = some r ∧
        r.description = JVal.null ∧ r.description ≠ JVal.str "") ∧
    normalizeEntry [("repo", JVal.num 42)] = none := by
  refine ⟨⟨_, rfl, rfl, ?_⟩, rfl⟩
  intro h
  exact JVal.noConfusion h

/-- **C2 (amended)** — for every raw listing entry whose repository part
resolves to a mapping (a bare repository mapping, or a wrapper whose
`repo` key holds a mapping), the normalizer produces exactly one record
and does not raise; every *absent* key degrades to its default
(`description` → `""`, `language` → `"Unknown"`, `topics` → `[]`,
`stars` → `0`, `starred_at`/`homepage`/`last_updated` → `""`, and also
`name`/`url` → `""`), while a *present* key's value — malformed or not —
is passed through unchanged. -/
theorem normalize_defaults (item rf : List (String × JVal))
    (h : repoPart item = JVal.obj rf) :
    ∃ r, normalizeEntry item = some r ∧
      (rf.lookup "description" = none → r.description = JVal.str "") ∧
      (rf.lookup "language" = none → r.language = JVal.str "Unknown") ∧
      (rf.lookup "topics" = none → r.topics = JVal.arr []) ∧
      (rf.lookup "stargazers_count" = none → r.stars = JVal.num 0) ∧
      (item.lookup "starred_at" = none → r.starred_at = JVal.str "") ∧
      (rf.lookup "homepage" = none → r.homepage = JVal.str "") ∧
      (rf.lookup "updated_at" = none → r.last_updated = JVal.str "") ∧
      (rf.lookup "full_name" = none → r.name = JVal.str "") ∧
      (rf.lookup "html_url" = none → r.url = JVal.str "") ∧
      (∀ v, rf.lookup "description" = some v → r.description = v) := by
  have hn : normalizeEntry item = some
      { name := pyGet rf "full_name" (JVal.str "")
        description := pyGet rf "description" (JVal.str "")
        url := pyGet rf "html_url" (JVal.str "")
        language := pyGet rf "language" (JVal.str "Unknown")
        topics := pyGet rf "topics" (JVal.arr [])
        stars := pyGet rf "stargazers_count" (JVal.num 0)
        last_updated := pyGet rf "updated_at" (JVal.str "")
        starred_at := pyGet item "starred_at" (JVal.str "")
        homepage := pyGet rf "homepage" (JVal.str "") } := by
    unfold normalizeEntry
    rw [h]
  refine ⟨_, hn, ?_, ?_, ?_, ?_, ?_, ?_, ?_, ?_, ?_, ?_⟩ <;>
    first
      | (intro hk; simp [pyGet, hk])
      | (intro v hk; simp [pyGet, hk])

theorem normalize_defaults_witness :
    ∃ r, normalizeEntry [] = some r ∧
      (List.lookup "description" ([] : List (String × JVal)) = none →
        r.description = JVal.str "") ∧
      (List.lookup "language" ([] : List (String × JVal)) = none →
        r.language = JVal.str "Unknown") ∧
      (List.lookup "topics" ([] : List (String × JVal)) = none →
        r.topics = JVal.arr []) ∧
      (List.lookup "stargazers_count" ([] : List (String × JVal)) = none →
        r.stars = JVal.num 0) ∧
      (List.lookup "starred_at" ([] : List (String × JVal)) = none →
        r.starred_at = JVal.str "") ∧
      (List.lookup "homepage" ([] : List (String × JVal)) = none →
        r.homepage = JVal.str "") ∧
      (List.lookup "updated_at" ([] : List (String × JVal)) = none →
        r.last_updated = JVal.str "") ∧
      (List.lookup "full_name" ([] : List (String × JVal)) = none →
        r.name = JVal.str "") ∧
      (List.lookup "html_url" ([] : List (String × JVal)) = none →
        r.url = JVal.str "") ∧
      (∀ v, List.lookup "description" ([] : List (String × JVal)) = some v →
        r.description = v) :=
  normalize_defaults [] [] rfl

theorem insertDesc_perm {α β : Type} [LinearOrder β] (key : α → β) (x : α) :
    ∀ l : List α, List.Perm (insertDesc key x l) (x :: l) := by
  intro l
  induction l with
  | nil => exact List.Perm.refl _
  | cons y l ih =>
      unfold insertDesc
      by_cases h : key y ≤ key x
      · simp [h]
      · simp only [h, if_false]
        exact (ih.cons y).trans (List.Perm.swap x y l)

theorem sortDesc_perm {α β : Type} [LinearOrder β] (key : α → β) :
    ∀ l : List α, List.Perm (sortDesc key l) l := by
  intro l
  induction l with
  | nil => exact List.Perm.refl _
  | cons x l ih =>
      exact (insertDesc_perm key x (sortDesc key l)).trans (ih.cons x)

theorem insertDesc_pairwise {α β : Type} [LinearOrder β] (key : α → β)
    (x : α) (l : List α) (h : l.Pairwise fun a b => key b ≤ key a) :
    (insertDesc key x l).Pairwise fun a b => key b ≤ key a := by
  induction l with
  | nil => simp [insertDesc]
  | cons y l ih =>
      rcases List.pairwise_cons.mp h with ⟨hy, hl⟩
      unfold insertDesc
      by_cases hxy : key y ≤ key x
      · rw [if_pos hxy]
        refine List.pairwise_cons.mpr ⟨?_, h⟩
        intro b hb
        rcases List.mem_cons.mp hb with rfl | hb
        · exact hxy
        · exact le_trans (hy b hb) hxy
      · rw [if_neg hxy]
        refine List.pairwise_cons.mpr ⟨?_, ih hl⟩
        intro b hb
        rcases List.mem_cons.mp
            ((insertDesc_perm key x l).mem_iff.mp hb) with rfl | hb
        · exact le_of_lt (not_le.mp hxy)
        · exact hy b hb

theorem sortDesc_pairwise {α β : Type} [LinearOrder β] (key : α → β) :
    ∀ l : List α, (sortDesc key l).Pairwise fun a b => key b ≤ key a := by
  intro l
  induction l with
  | nil => simp [sortDesc]
  | cons x l ih => exact insertDesc_pairwise key x (sortDesc key l) ih

theorem insertDesc_filter {α β : Type} [LinearOrder β] (key : α → β)
    (x : α) (c : β) :
    ∀ l : List α,
      (insertDesc key x l).filter (fun y => key y == c) =
        ((x :: l).filter fun y => key y == c) := by
  intro l
  induction l with
  | nil => rfl
  | cons y l ih =>
      unfold insertDesc
      by_cases hxy : key y ≤ key x
      · simp [hxy]
      · simp only [hxy, if_false]
        have hyx : key x < key y := not_le.mp hxy
        by_cases hx : key x = c
        · have hyc : ¬ key y = c := hx ▸ ne_of_gt hyx
          simp [List.filter_cons, hx, hyc, ih]
        · by_cases hy : key y = c
          · simp [List.filter_cons, hx, hy, ih]
          · simp [List.filter_cons, hx, hy, ih]

theorem sortDesc_filter {α β : Type} [LinearOrder β] (key : α → β) (c : β) :
    ∀ l : List α,
      (sortDesc key l).filter (fun y => key y == c) =
        (l.filter fun y => key y == c) := by
  intro l
  induction l with
  | nil => rfl
  | cons x l ih =>
      show (insertDesc key x (sortDesc key l)).filter _ = _
      rw [insertDesc_filter]
      simp [List.filter_cons, ih]

theorem str_empty_le (s : String) : "" ≤ s := by
  rw [String.le_iff_toList_le, String.toList_empty]
  exact List.nil_le

/-- **C5** — `topStars` is the truncation of a stable descending sort by
the `stars` field: the output is an initial segment of a permutation of
the input that is pairwise descending in `stars`, and filtering either
side to any fixed star count gives identical sublists (ties keep their
original relative order); in particular for star counts `[5, 90, 3, 90]`,
`topStars 2` is the two 90-star records in their original order. -/
theorem topStars_spec :
    (∀ (repos : List StarRecord) (lim : Nat),
      ∃ sorted, List.Perm sorted repos ∧
        sorted.Pairwise (fun a b => b.stars ≤ a.stars) ∧
        (∀ c, sorted.filter (fun r => r.stars == c) =
          repos.filter fun r => r.stars == c) ∧
        topStars repos lim = sorted.take lim) ∧
    topStars [exR "a" 5, exR "b" 90, exR "c" 3, exR "d" 90] 2 =
      [exR "b" 90, exR "d" 90] := by
  constructor
  · intro repos lim
    exact ⟨sortDesc (fun r => r.stars) repos, sortDesc_perm _ _,
      sortDesc_pairwise _ _, fun c => sortDesc_filter _ c _, rfl⟩
  · decide

/-- **C4** — `recentStars` is the truncation of the descending sort by
`starred_at` compared as strings: an initial segment of a permutation of
the input, pairwise descending lexicographically, in which a record with
an empty `starred_at` is followed only by records with empty
`starred_at` (the empty string sorts after every non-empty timestamp);
and `generate_markdown` renders its sections in exactly that sorted
order (the last conjunct exposes the renderer's section list). -/
theorem recentStars_spec (repos : List StarRecord) (lim : Nat) (ts : String) :
    ∃ sorted, List.Perm sorted repos ∧
      sorted.Pairwise (fun a b => b.starred_at ≤ a.starred_at) ∧
      sorted.Pairwise (fun a b => a.starred_at = "" → b.starred_at = "") ∧
      recentStars repos lim = sorted.take lim ∧
      generate_markdown ts repos =
        (sorted, mdHeader ts repos.length ++ String.join (sorted.map repoSection)) := by
  refine ⟨sortDesc (fun r => r.starred_at) repos, sortDesc_perm _ _,
    sortDesc_pairwise _ _, ?_, rfl, rfl⟩
  refine (sortDesc_pairwise (fun r => r.starred_at) repos).imp ?_
  intro a b hab ha
  exact le_antisymm (ha ▸ hab) (str_empty_le _)

theorem commitPayload_eq (quote : String → String)
    (msg br md : String) :
    ∀ sha, commitPayload quote msg br md sha =
      [("message", msg), ("content", base64Encode (utf8Bytes md)),
        ("branch", br)] ++ shaEntry sha := by
  intro sha
  cases sha with
  | none => rfl
  | some s =>
      by_cases h : s = ""
      · subst h; rfl
      · simp [commitPayload, shaEntry, dictSet, h]

/-- **C7** — the `content` field of the payload actually sent by the
publisher's write equals the base64 encoding of the rendered document's
UTF-8 bytes, and the URL-encoding step applied to the same content
earlier is dead: the whole outcome of `commit_to_github` — payload sent,
store state after the write, result — is identical for any two `quote`
functions, so the discarded step has no effect on the bytes written. -/
theorem commit_content_is_base64 (quote1 quote2 : String → String)
    (msg br md : String) (getResp : Option (Nat × Option String))
    (store : Option (String × String)) (newSha : String) :
    (commit_to_github quote1 msg br md getResp store newSha).1.lookup "content" =
      some (base64Encode (utf8Bytes md)) ∧
    commit_to_github quote1 msg br md getResp store newSha =
      commit_to_github quote2 msg br md getResp store newSha := by
  have h1 := commitPayload_eq quote1 msg br md (shaFromGet getResp)
  have h2 := commitPayload_eq quote2 msg br md (shaFromGet getResp)
  constructor
  · show (commitPayload quote1 msg br md (shaFromGet getResp)).lookup "content" = _
    rw [h1]
    rfl
  · simp only [commit_to_github]
    rw [h1, h2]

/-- **C3** — publish conflict.  When the stored version token is `T1` and
the write is conditioned on a stale token `T0 ≠ T1` (read while `T0` was
current, a concurrent writer moved the store to `T1` before the PUT), the
publisher's outcome is `PublishConflict` and the store is left exactly as
it was — no partial write; and `PublishConflict` is distinguishable from
the `UpstreamError s` outcome of every other non-success status `s`. -/
theorem commit_conflict (quote : String → String)
    (msg br md oldContent T0 T1 newSha : String)
    (hne : T0 ≠ T1) (h0 : T0 ≠ "") :
    commit_to_github quote msg br md (some (200, some T0))
        (some (T1, oldContent)) newSha =
      (commitPayload quote msg br md (some T0),
        some (T1, oldContent), PublishConflict) ∧
    ∀ s, s ≠ 409 → UpstreamError s ≠ PublishConflict := by
  constructor
  · have hpay : commitPayload quote msg br md (some T0) =
        [("message", msg), ("content", base64Encode (utf8Bytes md)),
          ("branch", br), ("sha", T0)] := by
      rw [commitPayload_eq]
      simp [shaEntry, h0]
    have hsha : shaFromGet (some (200, some T0)) = some T0 := rfl
    simp only [commit_to_github, hsha, hpay]
    have hlook : (List.lookup "sha"
        [("message", msg), ("content", base64Encode (utf8Bytes md)),
          ("branch", br), ("sha", T0)]) = some T0 := rfl
    rw [hlook]
    simp [storePut, hne, PublishConflict]
  · intro s hs h
    exact hs (CommitResult.httpError.inj h)

theorem commit_conflict_witness :
    commit_to_github (fun s => s) "m" "main" "doc" (some (200, some "a"))
        (some ("b", "old")) "n" =
      (commitPayload (fun s => s) "m" "main" "doc" (some "a"),
        some ("b", "old"), PublishConflict) ∧
    ∀ s, s ≠ 409 → UpstreamError s ≠ PublishConflict :=
  commit_conflict (fun s => s) "m" "main" "doc" "old" "a" "b" "n"
    (by decide) (by decide)

/-- **C10** — every read outcome other than a 200 response — any other
status (server errors, auth failures, not-found) and the exception case —
is treated identically to the document not existing: the publisher's
behaviour equals its behaviour on a failed read, and the payload it sends
carries no `sha` key, an unconditional create-style write. -/
theorem commit_read_nonsuccess_create (quote : String → String)
    (msg br md newSha : String) (store : Option (String × String))
    (status : Nat) (shaOpt : Option String) (h : status ≠ 200) :
    commit_to_github quote msg br md (some (status, shaOpt)) store newSha =
      commit_to_github quote msg br md none store newSha ∧
    (commit_to_github quote msg br md (some (status, shaOpt))
        store newSha).1.lookup "sha" = none := by
  have hsha : shaFromGet (some (status, shaOpt)) = none := by
    simp [shaFromGet, h]
  constructor
  · simp only [commit_to_github, shaFromGet, if_neg h]
  · show (commitPayload quote msg br md
        (shaFromGet (some (status, shaOpt)))).lookup "sha" = none
    rw [hsha, commitPayload_eq]
    rfl

theorem commit_read_nonsuccess_create_witness :
    commit_to_github (fun s => s) "m" "main" "doc" (some (500, some "t"))
        (some ("b", "old")) "n" =
      commit_to_github (fun s => s) "m" "main" "doc" none
        (some ("b", "old")) "n" ∧
    (commit_to_github (fun s => s) "m" "main" "doc" (some (500, some "t"))
        (some ("b", "old")) "n").1.lookup "sha" = none :=
  commit_read_nonsuccess_create (fun s => s) "m" "main" "doc" "n"
    (some ("b", "old")) 500 (some "t") (by decide)

theorem call_tool_ok (dumps : List StarRecord → String)
    (name : String) (args : ToolArgs) :
    ∀ repos, ∃ s, call_tool dumps (Except.ok repos) name args =
      Except.ok [ToolResult.text s] := by
  intro repos
  simp only [call_tool]
  split_ifs <;> exact ⟨_, rfl⟩

/-- **C6** — every tool call yields exactly one textual result to the
caller: when the in-handler fetch succeeds the handler itself never
raises (every dispatch branch, the unknown-name fallback included,
returns a single text), and when it raises — e.g. an upstream listing
failure — the protocol layer catches it and re-surfaces the error text
as the result instead of letting it terminate the session. -/
theorem tool_session_textual (dumps : List StarRecord → String)
    (fetchResult : Except String (List StarRecord))
    (name : String) (args : ToolArgs) :
    (∃ s, toolSession dumps fetchResult name args = [ToolResult.text s]) ∧
    (∀ e, toolSession dumps (Except.error e) name args =
      [ToolResult.text e]) := by
  constructor
  · cases fetchResult with
    | error e => exact ⟨e, rfl⟩
    | ok repos =>
        obtain ⟨s, hs⟩ := call_tool_ok dumps name args repos
        exact ⟨s, by unfold toolSession; rw [hs]⟩
  · intro e
    rfl

theorem syncLoop_bounds (postOk : Nat → Bool) :
    ∀ (repos : List StarRecord) (i : Nat),
      (syncLoop postOk i repos).1 ≤ repos.length ∧
      (syncLoop postOk i repos).2 = repos.length := by
  intro repos
  induction repos with
  | nil => intro i; exact ⟨Nat.le_refl 0, rfl⟩
  | cons r rest ih =>
      intro i
      obtain ⟨h1, h2⟩ := ih (i + 1)
      constructor
      · show (if postOk i then 1 else 0) + (syncLoop postOk (i + 1) rest).1 ≤ _
        rw [List.length_cons]
        by_cases hp : postOk i <;> simp [hp] <;> omega
      · show (syncLoop postOk (i + 1) rest).2 + 1 = _
        rw [List.length_cons]
        omega

/-- **C9** — the mirror submits each record independently and reports how
many of `N` succeeded: with no sink credential it returns 0 immediately
having attempted nothing; otherwise the success count is at most `N` and
the number of submissions attempted is exactly `N`, whatever each
individual POST's outcome (a failed submission never aborts the rest). -/
theorem sync_repos_spec (apiKey : String) (postOk : Nat → Bool)
    (repos : List StarRecord) :
    sync_repos "" postOk repos = (0, 0) ∧
    (sync_repos apiKey postOk repos).1 ≤ repos.length ∧
    (sync_repos apiKey postOk repos).2 =
      if apiKey = "" then 0 else repos.length := by
  refine ⟨by simp [sync_repos], ?_, ?_⟩
  · by_cases hk : apiKey = ""
    · simp [sync_repos, hk]
    · simpa [sync_repos, hk] using (syncLoop_bounds postOk repos 0).1
  · by_cases hk : apiKey = ""
    · simp [sync_repos, hk]
    · simpa [sync_repos, hk] using (syncLoop_bounds postOk repos 0).2

/-- **C8** — in every sync run that reaches rendering (a non-empty
record set), the local save of the rendered document is the first
observable step, strictly before the publish attempt; the run completes
whether or not the publish raises; and in particular after a failed
publish (`publishRaises = true`, reported as `publishFailureReported`)
the locally saved document still holds exactly the rendered content. -/
theorem main_local_save_before_publish (ts : String)
    (repos : List StarRecord) (smKey : String) (postOk : Nat → Bool)
    (publishRaises : Bool) (h : repos ≠ []) :
    (mainSync ts repos smKey postOk publishRaises).localFile =
      some (generate_markdown ts repos).2 ∧
    (mainSync ts repos smKey postOk publishRaises).completed = true ∧
    (mainSync ts repos smKey postOk publishRaises).events.head? =
      some (SyncEvent.savedLocal (generate_markdown ts repos).2) ∧
    ∃ j, 0 < j ∧
      (mainSync ts repos smKey postOk publishRaises).events.get? j =
        some SyncEvent.publishAttempt ∧
      (mainSync ts repos smKey postOk publishRaises).events.get? (j + 1) =
        some (if publishRaises then SyncEvent.publishFailureReported
          else SyncEvent.publishOk) := by
  have hne : repos.isEmpty = false := by
    cases repos with
    | nil => exact absurd rfl h
    | cons r rest => rfl
  refine ⟨?_, ?_, ?_, ?_⟩
  · simp [mainSync, hne]
  · simp [mainSync, hne]
  · simp [mainSync, hne]
  · by_cases hk : smKey = ""
    · refine ⟨1, by omega, ?_, ?_⟩ <;> cases publishRaises <;>
        simp [mainSync, hne, hk, List.get?]
    · refine ⟨2, by omega, ?_, ?_⟩ <;> cases publishRaises <;>
        simp [mainSync, hne, hk, List.get?]

theorem main_local_save_before_publish_witness :
    (mainSync "T" [exR "a" 1] "" (fun _ => false) true).localFile =
      some (generate_markdown "T" [exR "a" 1]).2 ∧
    (mainSync "T" [exR "a" 1] "" (fun _ => false) true).completed = true ∧
    (mainSync "T" [exR "a" 1] "" (fun _ => false) true).events.head? =
      some (SyncEvent.savedLocal (generate_markdown "T" [exR "a" 1]).2) ∧
    ∃ j, 0 < j ∧
      (mainSync "T" [exR "a" 1] "" (fun _ => false) true).events.get? j =
        some SyncEvent.publishAttempt ∧
      (mainSync "T" [exR "a" 1] "" (fun _ => false) true).events.get? (j + 1) =
        some (if true then SyncEvent.publishFailureReported
          else SyncEvent.publishOk) :=
  main_local_save_before_publish "T" [exR "a" 1] "" (fun _ => false) true
    (by decide)
